import Mathlib

/-!
Shallow embedding of the resilience layer of the 12-factor sample app
(`src/12-factor-app/src/utils/resilience.ts`): the circuit breaker state
machine, the retry-with-backoff executor, the timeout race, and the
coordinator (`ResilienceService.executeWithResilience`).

Modelling conventions:
* Timestamps (`Date.now()`) and durations are `Nat` milliseconds.  Each
  breaker-gated call is given the wall-clock instant at which the gate check
  runs and the instant at which the wrapped promise settles.
* A JS `Error` is modelled by the inductive `Err`; the two Errors constructed
  by the resilience code keep exactly the data their message template
  interpolates, and `Err.message` reproduces the message string.
* `Promise<T>` results are `Except Err α`; an asynchronous operation is
  characterised by the time it takes to settle and the outcome it settles
  with (`OpRun`).
* Mutation of `this` is explicit state passing: methods that mutate return
  the updated object.  The JS `Map` registry is an association list with
  `Map.set`/`Map.get` semantics (`mapSet`/`mapGet`).
* Calls to `logger` and `metricsService` are fire-and-forget observability
  sinks (out of scope per the spec) and have no bearing on control flow or
  state; they are not modelled.
-/

deriving instance DecidableEq for Except

namespace Resilience

/-- `enum CircuitBreakerState` (resilience.ts lines 5-9). -/
inductive CircuitBreakerState where
  | CLOSED
  | OPEN
  | HALF_OPEN
deriving DecidableEq, Repr

/-- `interface CircuitBreakerOptions` (lines 11-16). -/
structure CircuitBreakerOptions where
  threshold : Nat
  timeout : Nat
  resetTimeout : Nat
  name : String
deriving DecidableEq, Repr

/-- Errors thrown by the resilience layer or by the wrapped operation.
`circuitOpen` and `timeout` are the two `new Error(...)` sites of
resilience.ts (lines 42 and 144); `op` is an arbitrary error thrown by the
wrapped operation itself (carrying its own message); `undef` models the JS
`undefined` thrown when the retry loop never runs (`attempts = 0`). -/
inductive Err where
  | circuitOpen (name : String)
  | timeout (ms : Nat)
  | op (msg : String)
  | undef
deriving DecidableEq, Repr

/-- The `message` property of the corresponding JS `Error`. -/
def Err.message : Err → String
  | .circuitOpen name => "Circuit breaker " ++ name ++ " is OPEN"
  | .timeout ms => "Operation timed out after " ++ toString ms ++ "ms"
  | .op msg => msg
  | .undef => "undefined"

/-- `class CircuitBreaker` instance fields (lines 31-37).  Field defaults are
the initialisers of the class; `options` is the constructor argument. -/
structure CircuitBreaker where
  options : CircuitBreakerOptions
  state : CircuitBreakerState := .CLOSED
  failureCount : Nat := 0
  lastFailureTime : Nat := 0
  nextAttemptTime : Nat := 0
deriving DecidableEq, Repr

/-- `CircuitBreaker.onSuccess` (lines 62-68). -/
def CircuitBreaker.onSuccess (cb : CircuitBreaker) : CircuitBreaker :=
  let cb := { cb with failureCount := 0 }
  if cb.state = CircuitBreakerState.HALF_OPEN then
    { cb with state := CircuitBreakerState.CLOSED }
  else cb

/-- `CircuitBreaker.onFailure` (lines 70-80); `now` is `Date.now()` at the
time the failure is recorded. -/
def CircuitBreaker.onFailure (cb : CircuitBreaker) (now : Nat) : CircuitBreaker :=
  let cb := { cb with failureCount := cb.failureCount + 1, lastFailureTime := now }
  if cb.options.threshold ≤ cb.failureCount then
    { cb with state := CircuitBreakerState.OPEN,
              nextAttemptTime := now + cb.options.resetTimeout }
  else cb

/-- The OPEN-state gate at the top of `CircuitBreaker.execute`
(lines 40-50): `none` means the call is rejected (`Date.now()` still inside
the open window); `some cb'` is the breaker state with which the call
proceeds (moved to HALF_OPEN when the window has elapsed). -/
def CircuitBreaker.gate (cb : CircuitBreaker) (now : Nat) : Option CircuitBreaker :=
  if cb.state = CircuitBreakerState.OPEN then
    if now < cb.nextAttemptTime then none
    else some { cb with state := CircuitBreakerState.HALF_OPEN }
  else some cb

/-- Result of one `CircuitBreaker.execute` call: the value returned or error
thrown, the breaker state afterwards, and whether `fn` was invoked. -/
structure ExecResult (α : Type) where
  result : Except Err α
  breaker : CircuitBreaker
  invoked : Bool
deriving Repr

/-- `CircuitBreaker.execute` (lines 39-60).  `now` is `Date.now()` at the
gate check, `settleTime` the instant `fn`'s promise settles (used by
`onFailure` as its `Date.now()`), and `res` the outcome `fn` settles with
when invoked. -/
def CircuitBreaker.execute (cb : CircuitBreaker) (now settleTime : Nat)
    (res : Except Err α) : ExecResult α :=
  match cb.gate now with
  | none => ⟨Except.error (Err.circuitOpen cb.options.name), cb, false⟩
  | some cb1 =>
    match res with
    | Except.ok v => ⟨Except.ok v, cb1.onSuccess, true⟩
    | Except.error e => ⟨Except.error e, cb1.onFailure settleTime, true⟩

/-- `CircuitBreaker.getState` (lines 82-84): a pure read, `return this.state`. -/
def CircuitBreaker.getState (cb : CircuitBreaker) : CircuitBreakerState :=
  cb.state

/-- The record returned by `CircuitBreaker.getStats`. -/
structure CBStats where
  state : CircuitBreakerState
  failureCount : Nat
  lastFailureTime : Nat
deriving DecidableEq, Repr

/-- `CircuitBreaker.getStats` (lines 86-92): a pure read. -/
def CircuitBreaker.getStats (cb : CircuitBreaker) : CBStats :=
  ⟨cb.state, cb.failureCount, cb.lastFailureTime⟩

/-- `interface RetryOptions` (lines 18-24).  `exponentialBackoff?` is only
ever used as a truthiness test, so an absent value behaves as `false`. -/
structure RetryOptions where
  attempts : Nat
  delay : Nat
  exponentialBackoff : Bool := false
  maxDelay : Option Nat := none
  name : Option String := none
deriving DecidableEq, Repr

/-- The JS idiom `v || d` applied to an optional number: `undefined` and `0`
both fall through to the default. -/
def orDefault (v : Option Nat) (d : Nat) : Nat :=
  match v with
  | some m => if m = 0 then d else m
  | none => d

/-- The backoff update after a failed non-final attempt (line 130-132):
`if (options.exponentialBackoff) delay = Math.min(delay * 2, options.maxDelay || delay * 10)`. -/
def nextDelay (options : RetryOptions) (delay : Nat) : Nat :=
  if options.exponentialBackoff then
    min (delay * 2) (orDefault options.maxDelay (delay * 10))
  else delay

/-- Outcome of one `RetryService.execute` run: the settled result, the state
threaded through the retried closure, the number of times the closure was
invoked by the loop, and the list of inter-attempt waits slept (in order). -/
structure RetryRun (σ α : Type) where
  result : Except Err α
  state : σ
  calls : Nat
  waits : List Nat
deriving Repr

/-- The `for` loop of `RetryService.execute` (lines 100-134), from iteration
`attempt` with current backoff `delay`.  The retried closure `fn` may carry
state of type `σ` (in the source it is an async closure over mutable
objects, e.g. a circuit breaker); it receives the attempt number and the
threaded state.  When `attempt` already exceeds `options.attempts` the loop
body never runs and `throw lastError` throws `undefined`. -/
def RetryService.loop (options : RetryOptions) (fn : Nat → σ → Except Err α × σ)
    (attempt delay : Nat) (s : σ) : RetryRun σ α :=
  if _h : attempt ≤ options.attempts then
    match fn attempt s with
    | (Except.ok v, s1) => ⟨Except.ok v, s1, 1, []⟩
    | (Except.error e, s1) =>
      if attempt = options.attempts then ⟨Except.error e, s1, 1, []⟩
      else
        let r := RetryService.loop options fn (attempt + 1) (nextDelay options delay) s1
        ⟨r.result, r.state, r.calls + 1, delay :: r.waits⟩
  else ⟨Except.error Err.undef, s, 0, []⟩
termination_by options.attempts - attempt
decreasing_by
  simp_wf
  omega

/-- `RetryService.execute` (lines 96-137): run the loop from attempt 1 with
the initial backoff `options.delay`. -/
def RetryService.execute (fn : Nat → σ → Except Err α × σ) (options : RetryOptions)
    (s : σ) : RetryRun σ α :=
  RetryService.loop options fn 1 options.delay s

/-- `RetryService.execute` specialised to a stateless operation (the direct
use of the class, where `fn` closes over nothing mutable). -/
def RetryService.executePure (fn : Nat → Except Err α) (options : RetryOptions) :
    RetryRun Unit α :=
  RetryService.execute (fun attempt _ => (fn attempt, ())) options ()

/-- `interface TimeoutOptions` (lines 26-29).  `name` is used only for the
observability sink (`metricsService` / `logger`), never in the error. -/
structure TimeoutOptions where
  timeout : Nat
  name : Option String := none
deriving DecidableEq, Repr

/-- `TimeoutService.execute` (lines 141-162): `Promise.race` between the
operation (settling with `res` after `opDuration` ms) and a timer that
rejects with `new Error("Operation timed out after ...ms")` after
`options.timeout` ms.  The operation wins iff it settles strictly before
the deadline; the catch block (lines 156-161) rethrows in both branches and
is a no-op. -/
def TimeoutService.execute (opDuration : Nat) (res : Except Err α)
    (options : TimeoutOptions) : Except Err α :=
  if opDuration < options.timeout then res
  else Except.error (Err.timeout options.timeout)

/-- Process-wide defaults from `config.resilience` (src/config, Joi
defaults: threshold 5, timeout 60000, resetTimeout 30000, retry attempts 3,
retry delay 1000, request timeout 30000). -/
structure ResilienceConfig where
  cbThreshold : Nat := 5
  cbTimeout : Nat := 60000
  cbResetTimeout : Nat := 30000
  retryAttempts : Nat := 3
  retryDelay : Nat := 1000
  requestTimeout : Nat := 30000
deriving DecidableEq, Repr

/-- `Map.get` on the breaker registry. -/
def mapGet (m : List (String × CircuitBreaker)) (k : String) : Option CircuitBreaker :=
  match m with
  | [] => none
  | (k1, v1) :: rest => if k1 = k then some v1 else mapGet rest k

/-- `Map.set` on the breaker registry: replaces an existing binding for the
key, otherwise appends a new one. -/
def mapSet (m : List (String × CircuitBreaker)) (k : String) (v : CircuitBreaker) :
    List (String × CircuitBreaker) :=
  match m with
  | [] => [(k, v)]
  | (k1, v1) :: rest => if k1 = k then (k, v) :: rest else (k1, v1) :: mapSet rest k v

/-- `class ResilienceService` (lines 165-243): the breaker registry plus the
process configuration it reads defaults from. -/
structure ResilienceService where
  circuitBreakers : List (String × CircuitBreaker) := []
  config : ResilienceConfig := {}
deriving DecidableEq, Repr

/-- `Partial<CircuitBreakerOptions>` as passed to `createCircuitBreaker`. -/
structure PartialCBOptions where
  threshold : Option Nat := none
  timeout : Option Nat := none
  resetTimeout : Option Nat := none
  name : Option String := none
deriving DecidableEq, Repr

/-- `ResilienceService.createCircuitBreaker` (lines 168-181): builds the
final options with `options?.field || config default` (`||` treats `0` like
`undefined`), constructs a fresh breaker, and unconditionally `set`s it into
the registry. -/
def ResilienceService.createCircuitBreaker (svc : ResilienceService) (name : String)
    (options : Option PartialCBOptions) : CircuitBreaker × ResilienceService :=
  let finalOptions : CircuitBreakerOptions :=
    { threshold := orDefault (options.bind (fun o => o.threshold)) svc.config.cbThreshold
      timeout := orDefault (options.bind (fun o => o.timeout)) svc.config.cbTimeout
      resetTimeout := orDefault (options.bind (fun o => o.resetTimeout)) svc.config.cbResetTimeout
      name := name }
  let circuitBreaker : CircuitBreaker := { options := finalOptions }
  (circuitBreaker, { svc with circuitBreakers := mapSet svc.circuitBreakers name circuitBreaker })

/-- `ResilienceService.getCircuitBreaker` (lines 183-185). -/
def ResilienceService.getCircuitBreaker (svc : ResilienceService) (name : String) :
    Option CircuitBreaker :=
  mapGet svc.circuitBreakers name

/-- `ResilienceService.getCircuitBreakerStats` (lines 234-242): a snapshot of
every registered breaker's stats; a pure read. -/
def ResilienceService.getCircuitBreakerStats (svc : ResilienceService) :
    List (String × CBStats) :=
  svc.circuitBreakers.map (fun p => (p.1, p.2.getStats))

/-- An asynchronous operation's behaviour on one invocation: how long its
promise takes to settle and the outcome it settles with. -/
structure OpRun (α : Type) where
  duration : Nat
  outcome : Except Err α
deriving Repr

/-- `options.circuitBreaker` of `executeWithResilience`:
`Partial<CircuitBreakerOptions> | false | undefined` (line 191). -/
inductive CBChoice where
  | unset
  | config (options : PartialCBOptions)
  | disabled
deriving DecidableEq, Repr

/-- `Partial<RetryOptions>` as accepted by `executeWithResilience`; an absent
`exponentialBackoff` is falsy, like `false`. -/
structure PartialRetryOptions where
  attempts : Option Nat := none
  delay : Option Nat := none
  exponentialBackoff : Bool := false
  maxDelay : Option Nat := none
deriving DecidableEq, Repr

/-- `Partial<TimeoutOptions>` as accepted by `executeWithResilience`. -/
structure PartialTimeoutOptions where
  timeout : Option Nat := none
deriving DecidableEq, Repr

/-- The `options` argument of `executeWithResilience` (lines 190-194); an
omitted `options` object behaves exactly like all fields absent. -/
structure ExecOptions where
  circuitBreaker : CBChoice := CBChoice.unset
  retry : Option PartialRetryOptions := none
  timeout : Option PartialTimeoutOptions := none
deriving DecidableEq, Repr

/-- Lines 196-200 of `executeWithResilience`: use the registered breaker if
one exists under `name` (regardless of `options.circuitBreaker`); otherwise
create one unless `options.circuitBreaker === false`. -/
def ResilienceService.resolveBreaker (svc : ResilienceService) (name : String)
    (choice : CBChoice) : Option CircuitBreaker × ResilienceService :=
  match svc.getCircuitBreaker name with
  | some cb => (some cb, svc)
  | none =>
    match choice with
    | CBChoice.disabled => (none, svc)
    | CBChoice.unset =>
      let r := svc.createCircuitBreaker name none
      (some r.1, r.2)
    | CBChoice.config p =>
      let r := svc.createCircuitBreaker name (some p)
      (some r.1, r.2)

/-- The effective timeout used by `executeWithTimeout` (lines 203-208):
present iff `options.timeout` was supplied, with the `||`-defaulted value. -/
def timeoutMsOf (options : ExecOptions) (cfg : ResilienceConfig) : Option Nat :=
  match options.timeout with
  | some t => some (orDefault t.timeout cfg.requestTimeout)
  | none => none

/-- `executeWithTimeout` (lines 202-211) applied to one invocation of `fn`:
wraps the operation in `TimeoutService.execute` iff a timeout was supplied. -/
def withTimeout (timeoutMs : Option Nat) (name : String) (run : OpRun α) :
    Except Err α :=
  match timeoutMs with
  | some t => TimeoutService.execute run.duration run.outcome ⟨t, some name⟩
  | none => run.outcome

/-- How long the `executeWithTimeout` promise takes to settle: the race
settles at the operation's own settle time or at the deadline, whichever is
earlier. -/
def withTimeoutDuration (timeoutMs : Option Nat) (run : OpRun α) : Nat :=
  match timeoutMs with
  | some t => min run.duration t
  | none => run.duration

/-- `executeWithCircuitBreaker` (lines 213-218) as the closure the
coordinator runs (and, with retry, re-runs each attempt).  The threaded
state is the current breaker (the JS closure mutates the captured
`circuitBreaker` object in place) together with the number of times the raw
operation `fn` has been invoked so far; `op k` describes the behaviour of
`fn` on its `k`-th invocation (1-based) and `tGate attempt` is `Date.now()`
when the attempt's breaker gate check runs. -/
def attemptOnce (timeoutMs : Option Nat) (name : String) (op : Nat → OpRun α)
    (tGate : Nat → Nat) (attempt : Nat) (s : Option CircuitBreaker × Nat) :
    Except Err α × (Option CircuitBreaker × Nat) :=
  match s with
  | (some cb, invocations) =>
    let run := op (invocations + 1)
    let now := tGate attempt
    let r := cb.execute now (now + withTimeoutDuration timeoutMs run)
      (withTimeout timeoutMs name run)
    (r.result, (some r.breaker, if r.invoked then invocations + 1 else invocations))
  | (none, invocations) =>
    (withTimeout timeoutMs name (op (invocations + 1)), (none, invocations + 1))

/-- Outcome of one `executeWithResilience` call: the settled result, the
service afterwards (the registry entry reflects the breaker the run mutated
in place), how many times the raw operation was invoked, how many attempts
the (possibly absent) retry loop made, and the waits slept between
attempts. -/
structure RunResult (α : Type) where
  result : Except Err α
  service : ResilienceService
  opInvocations : Nat
  calls : Nat
  waits : List Nat
deriving Repr

/-- `ResilienceService.executeWithResilience` (lines 187-232). -/
def ResilienceService.executeWithResilience (svc : ResilienceService) (name : String)
    (op : Nat → OpRun α) (options : ExecOptions) (tGate : Nat → Nat) : RunResult α :=
  let rb := svc.resolveBreaker name options.circuitBreaker
  let svc1 := rb.2
  let timeoutMs := timeoutMsOf options svc1.config
  let finish : Except Err α × (Option CircuitBreaker × Nat) → Nat → List Nat → RunResult α :=
    fun r calls waits =>
      let svc2 := match r.2.1 with
        | some cb => { svc1 with circuitBreakers := mapSet svc1.circuitBreakers name cb }
        | none => svc1
      ⟨r.1, svc2, r.2.2, calls, waits⟩
  match options.retry with
  | some pr =>
    let retryOptions : RetryOptions :=
      { attempts := orDefault pr.attempts svc1.config.retryAttempts
        delay := orDefault pr.delay svc1.config.retryDelay
        exponentialBackoff := pr.exponentialBackoff
        maxDelay := pr.maxDelay
        name := some name }
    let r := RetryService.execute (attemptOnce timeoutMs name op tGate) retryOptions
      (rb.1, 0)
    finish (r.result, r.state) r.calls r.waits
  | none =>
    finish (attemptOnce timeoutMs name op tGate 1 (rb.1, 0)) 1 []

/-! ## Theorems -/

/-- **C3**: a breaker in OPEN rejects every call made while the current time
is still inside the open window (`now < nextAttemptTime`) with the
`CircuitOpenError` naming the breaker, without invoking the operation and
without touching the breaker's state; the very next call once
`nextAttemptTime` has passed moves the breaker to HALF_OPEN at the gate and
does invoke the operation. -/
theorem open_breaker_rejects_then_half_opens (cb : CircuitBreaker)
    (hs : cb.state = CircuitBreakerState.OPEN) (now settleTime : Nat)
    (res : Except Err α) :
    (now < cb.nextAttemptTime →
      cb.execute now settleTime res =
        ⟨Except.error (Err.circuitOpen cb.options.name), cb, false⟩) ∧
    (cb.nextAttemptTime ≤ now →
      cb.gate now = some { cb with state := CircuitBreakerState.HALF_OPEN } ∧
      (cb.execute now settleTime res).invoked = true) := by
  constructor
  · intro hlt
    simp [CircuitBreaker.execute, CircuitBreaker.gate, hs, hlt]
  · intro hge
    have hgate : cb.gate now = some { cb with state := CircuitBreakerState.HALF_OPEN } := by
      simp [CircuitBreaker.gate, hs, Nat.not_lt.mpr hge]
    refine ⟨hgate, ?_⟩
    cases res <;> simp [CircuitBreaker.execute, hgate]

/-- Witness for C3 on the concrete breaker of the spec's scenario
(threshold 2, open window 100ms, opened with `nextAttemptTime = 101`):
a call at time 50 is rejected untouched; a call at time 101 invokes. -/
theorem open_breaker_rejects_then_half_opens_witness :
    ((⟨⟨2, 60000, 100, "db"⟩, CircuitBreakerState.OPEN, 2, 1, 101⟩ :
        CircuitBreaker).execute 50 50 (Except.ok 7) =
      ⟨Except.error (Err.circuitOpen "db"),
        ⟨⟨2, 60000, 100, "db"⟩, CircuitBreakerState.OPEN, 2, 1, 101⟩, false⟩) ∧
    ((⟨⟨2, 60000, 100, "db"⟩, CircuitBreakerState.OPEN, 2, 1, 101⟩ :
        CircuitBreaker).execute 101 101 (Except.ok 7)).invoked = true := by
  constructor
  · exact (open_breaker_rejects_then_half_opens _ rfl 50 50 (Except.ok 7)).1 (by decide)
  · exact ((open_breaker_rejects_then_half_opens _ rfl 101 101 (Except.ok 7)).2 (by decide)).2

/-- Run a sequence of failing executions against a breaker; each list entry
gives the gate time, the settle time and the error of one call. -/
def iterateFailures (cb : CircuitBreaker) : List (Nat × Nat × Err) → CircuitBreaker
  | [] => cb
  | f :: rest =>
    iterateFailures ((cb.execute f.1 f.2.1 (Except.error f.2.2 : Except Err Unit)).breaker) rest

theorem iterateFailures_append (l1 l2 : List (Nat × Nat × Err)) (cb : CircuitBreaker) :
    iterateFailures cb (l1 ++ l2) = iterateFailures (iterateFailures cb l1) l2 := by
  induction l1 generalizing cb with
  | nil => simp [iterateFailures]
  | cons f rest ih => simp [iterateFailures, ih]

/-- One failing call against a CLOSED breaker strictly below its threshold:
the breaker stays CLOSED and only the counter and failure time move. -/
theorem execute_closed_fail (cb : CircuitBreaker)
    (hs : cb.state = CircuitBreakerState.CLOSED)
    (hlt : cb.failureCount + 1 < cb.options.threshold) (g s : Nat) (e : Err) :
    (cb.execute g s (Except.error e : Except Err Unit)).breaker =
      { cb with failureCount := cb.failureCount + 1, lastFailureTime := s } := by
  have : ¬ cb.options.threshold ≤ cb.failureCount + 1 := by omega
  simp [CircuitBreaker.execute, CircuitBreaker.gate, CircuitBreaker.onFailure, hs, this]

/-- A run of consecutive failures that stays strictly below the threshold
keeps the breaker CLOSED and adds one to the counter per failure. -/
theorem iterateFailures_below_threshold (fails : List (Nat × Nat × Err)) :
    ∀ cb : CircuitBreaker, cb.state = CircuitBreakerState.CLOSED →
      cb.failureCount + fails.length < cb.options.threshold →
      (iterateFailures cb fails).state = CircuitBreakerState.CLOSED ∧
      (iterateFailures cb fails).failureCount = cb.failureCount + fails.length ∧
      (iterateFailures cb fails).options = cb.options := by
  induction fails with
  | nil => intro cb h1 _; simp [iterateFailures, h1]
  | cons f rest ih =>
    intro cb h1 h2
    have hstep := execute_closed_fail cb h1 (by simp at h2; omega) f.1 f.2.1 f.2.2
    have := ih { cb with failureCount := cb.failureCount + 1, lastFailureTime := f.2.1 }
      (by simp [h1]) (by simp at h2 ⊢; omega)
    simpa [iterateFailures, hstep, Nat.add_assoc, Nat.add_comm 1 rest.length] using this

/-- **C2**: a breaker starting CLOSED with `failureCount = 0` and
`failureThreshold = N > 0` stays CLOSED through any run of fewer than `N`
consecutive failures, and the very next (`N`-th) consecutive failure — at
whatever times — flips it to OPEN with
`nextAttemptTime = settleTime + resetTimeout` (the code's
`openUntilTimestamp = now + openDurationMs`). -/
theorem breaker_opens_exactly_at_threshold (cb : CircuitBreaker)
    (h0 : cb.state = CircuitBreakerState.CLOSED) (hc : cb.failureCount = 0)
    (_hN : 0 < cb.options.threshold) :
    (∀ fails : List (Nat × Nat × Err), fails.length < cb.options.threshold →
       (iterateFailures cb fails).state = CircuitBreakerState.CLOSED ∧
       (iterateFailures cb fails).failureCount = fails.length) ∧
    (∀ (fails : List (Nat × Nat × Err)) (g s : Nat) (e : Err),
       fails.length + 1 = cb.options.threshold →
       (iterateFailures cb (fails ++ [(g, s, e)])).state = CircuitBreakerState.OPEN ∧
       (iterateFailures cb (fails ++ [(g, s, e)])).nextAttemptTime =
         s + cb.options.resetTimeout) := by
  constructor
  · intro fails hlen
    have := iterateFailures_below_threshold fails cb h0 (by omega)
    exact ⟨this.1, by omega⟩
  · intro fails g s e hlen
    have hpre := iterateFailures_below_threshold fails cb h0 (by omega)
    set cbp := iterateFailures cb fails with hcbp
    have hthr : cbp.options.threshold ≤ cbp.failureCount + 1 := by
      rw [hpre.2.2]; omega
    have hopen :
        (cbp.execute g s (Except.error e : Except Err Unit)).breaker =
          { cbp with failureCount := cbp.failureCount + 1, lastFailureTime := s,
                     state := CircuitBreakerState.OPEN,
                     nextAttemptTime := s + cbp.options.resetTimeout } := by
      simp [CircuitBreaker.execute, CircuitBreaker.gate, CircuitBreaker.onFailure,
        hpre.1, hthr]
    rw [iterateFailures_append]
    simp [iterateFailures, hopen, hpre.2.2]

/-- Witness for C2 with threshold 2: one failure keeps the breaker CLOSED,
the second opens it with `nextAttemptTime = 7 + 100`. -/
theorem breaker_opens_exactly_at_threshold_witness :
    (iterateFailures ⟨⟨2, 60000, 100, "db"⟩, CircuitBreakerState.CLOSED, 0, 0, 0⟩
        [(3, 4, Err.op "x")]).state = CircuitBreakerState.CLOSED ∧
    (iterateFailures ⟨⟨2, 60000, 100, "db"⟩, CircuitBreakerState.CLOSED, 0, 0, 0⟩
        [(3, 4, Err.op "x"), (6, 7, Err.op "y")]).state = CircuitBreakerState.OPEN ∧
    (iterateFailures ⟨⟨2, 60000, 100, "db"⟩, CircuitBreakerState.CLOSED, 0, 0, 0⟩
        [(3, 4, Err.op "x"), (6, 7, Err.op "y")]).nextAttemptTime = 107 := by
  have h := breaker_opens_exactly_at_threshold
    ⟨⟨2, 60000, 100, "db"⟩, CircuitBreakerState.CLOSED, 0, 0, 0⟩ rfl rfl (by decide)
  refine ⟨(h.1 [(3, 4, Err.op "x")] (by decide)).1, ?_, ?_⟩
  · exact (h.2 [(3, 4, Err.op "x")] 6 7 (Err.op "y") (by decide)).1
  · exact (h.2 [(3, 4, Err.op "x")] 6 7 (Err.op "y") (by decide)).2

/-- The breaker states reachable from a freshly constructed breaker
(`new CircuitBreaker(opts)`) through any sequence of `execute` calls, at
arbitrary times and with arbitrary operation outcomes. -/
inductive Reachable (opts : CircuitBreakerOptions) : CircuitBreaker → Prop where
  | init : Reachable opts { options := opts }
  | step (cb : CircuitBreaker) (now settleTime : Nat) (res : Except Err Unit) :
      Reachable opts cb → Reachable opts ((cb.execute now settleTime res).breaker)

/-- State invariant of every reachable breaker: the options are the
construction options, and away from CLOSED the failure counter has reached
the threshold (the counter is only reset by `onSuccess`, which also closes
the breaker). -/
theorem reachable_invariant (opts : CircuitBreakerOptions) (cb : CircuitBreaker)
    (h : Reachable opts cb) :
    cb.options = opts ∧
    (cb.state ≠ CircuitBreakerState.CLOSED → opts.threshold ≤ cb.failureCount) := by
  induction h with
  | init => exact ⟨rfl, fun h => absurd rfl h⟩
  | step cb now settleTime res _hr ih =>
    obtain ⟨hopts, hinv⟩ := ih
    by_cases hO : cb.state = CircuitBreakerState.OPEN
    · by_cases ht : now < cb.nextAttemptTime
      · have hb : (cb.execute now settleTime res).breaker = cb := by
          simp [CircuitBreaker.execute, CircuitBreaker.gate, hO, ht]
        rw [hb]; exact ⟨hopts, hinv⟩
      · have hcnt : opts.threshold ≤ cb.failureCount := hinv (by simp [hO])
        cases res with
        | ok v =>
          have hb : (cb.execute now settleTime (Except.ok v)).breaker =
              { cb with failureCount := 0, state := CircuitBreakerState.CLOSED } := by
            simp [CircuitBreaker.execute, CircuitBreaker.gate, hO, ht,
              CircuitBreaker.onSuccess]
          rw [hb]
          exact ⟨hopts, fun hne => absurd rfl hne⟩
        | error e =>
          have hge : cb.options.threshold ≤ cb.failureCount + 1 := by rw [hopts]; omega
          have hb : (cb.execute now settleTime (Except.error e : Except Err Unit)).breaker =
              { cb with failureCount := cb.failureCount + 1, lastFailureTime := settleTime,
                        state := CircuitBreakerState.OPEN,
                        nextAttemptTime := settleTime + cb.options.resetTimeout } := by
            simp [CircuitBreaker.execute, CircuitBreaker.gate, hO, ht,
              CircuitBreaker.onFailure, hge]
          rw [hb]
          exact ⟨hopts, fun _ => by simpa using Nat.le_succ_of_le hcnt⟩
    · have hgate : cb.gate now = some cb := by simp [CircuitBreaker.gate, hO]
      cases res with
      | ok v =>
        have hb : (cb.execute now settleTime (Except.ok v)).breaker = cb.onSuccess := by
          simp [CircuitBreaker.execute, hgate]
        rw [hb]
        by_cases hH : cb.state = CircuitBreakerState.HALF_OPEN
        · have hs : cb.onSuccess =
              { cb with failureCount := 0, state := CircuitBreakerState.CLOSED } := by
            simp [CircuitBreaker.onSuccess, hH]
          rw [hs]; exact ⟨hopts, fun hne => absurd rfl hne⟩
        · have hC : cb.state = CircuitBreakerState.CLOSED := by
            cases hcs : cb.state <;> simp_all
          have hs : cb.onSuccess = { cb with failureCount := 0 } := by
            simp [CircuitBreaker.onSuccess, hH]
          rw [hs]; exact ⟨hopts, fun hne => absurd hC hne⟩
      | error e =>
        have hb : (cb.execute now settleTime (Except.error e : Except Err Unit)).breaker =
            cb.onFailure settleTime := by
          simp [CircuitBreaker.execute, hgate]
        rw [hb]
        by_cases hge : cb.options.threshold ≤ cb.failureCount + 1
        · have hf : cb.onFailure settleTime =
              { cb with failureCount := cb.failureCount + 1, lastFailureTime := settleTime,
                        state := CircuitBreakerState.OPEN,
                        nextAttemptTime := settleTime + cb.options.resetTimeout } := by
            simp [CircuitBreaker.onFailure, hge]
          rw [hf]
          exact ⟨hopts, fun _ => by rw [← hopts]; simpa using hge⟩
        · have hf : cb.onFailure settleTime =
              { cb with failureCount := cb.failureCount + 1, lastFailureTime := settleTime } := by
            simp [CircuitBreaker.onFailure, hge]
          rw [hf]
          refine ⟨hopts, fun hne => ?_⟩
          have hle : opts.threshold ≤ cb.failureCount := hinv (by simpa using hne)
          show opts.threshold ≤ cb.failureCount + 1
          omega

/-- **C4**: HALF_OPEN is entered transiently inside `execute` — it is the
state the gate moves to on the first call after the open window has
elapsed, and that call is the trial.  For every breaker reachable from
construction that is OPEN with its window elapsed: the gate admits the
trial in HALF_OPEN; a failing trial re-enters OPEN with a fresh
`nextAttemptTime = settleTime + resetTimeout`; a succeeding trial moves the
breaker to CLOSED with `failureCount` reset to 0. -/
theorem half_open_trial (opts : CircuitBreakerOptions) (_hN : 0 < opts.threshold)
    (cb : CircuitBreaker) (hr : Reachable opts cb)
    (hs : cb.state = CircuitBreakerState.OPEN) (now : Nat)
    (hnow : cb.nextAttemptTime ≤ now) :
    cb.gate now = some { cb with state := CircuitBreakerState.HALF_OPEN } ∧
    (∀ (settleTime : Nat) (e : Err),
      (cb.execute now settleTime (Except.error e : Except Err Unit)).breaker.state =
          CircuitBreakerState.OPEN ∧
      (cb.execute now settleTime (Except.error e : Except Err Unit)).breaker.nextAttemptTime =
          settleTime + opts.resetTimeout) ∧
    (∀ settleTime : Nat,
      (cb.execute now settleTime (Except.ok () : Except Err Unit)).breaker.state =
          CircuitBreakerState.CLOSED ∧
      (cb.execute now settleTime (Except.ok () : Except Err Unit)).breaker.failureCount = 0) := by
  obtain ⟨hopts, hinv⟩ := reachable_invariant opts cb hr
  have hcnt : opts.threshold ≤ cb.failureCount := hinv (by simp [hs])
  have hgate : cb.gate now = some { cb with state := CircuitBreakerState.HALF_OPEN } := by
    simp [CircuitBreaker.gate, hs, Nat.not_lt.mpr hnow]
  refine ⟨hgate, ?_, ?_⟩
  · intro settleTime e
    have hge : cb.options.threshold ≤ cb.failureCount + 1 := by rw [hopts]; omega
    have hge2 : opts.threshold ≤ cb.failureCount + 1 := by omega
    simp [CircuitBreaker.execute, hgate, CircuitBreaker.onFailure, hge, hge2, hopts]
  · intro settleTime
    simp [CircuitBreaker.execute, hgate, CircuitBreaker.onSuccess]

/-- Witness for C4: a breaker with threshold 1 opened by one failure
(window 100ms); the trial at time 100 settling at 150 either fails — the
breaker re-opens until 250 — or succeeds — the breaker closes with a zeroed
counter. -/
theorem half_open_trial_witness :
    (((((⟨⟨1, 60000, 100, "db"⟩, CircuitBreakerState.CLOSED, 0, 0, 0⟩ : CircuitBreaker).execute
          0 0 (Except.error (Err.op "x") : Except Err Unit)).breaker.execute
          100 150 (Except.error (Err.op "y") : Except Err Unit)).breaker.state =
        CircuitBreakerState.OPEN) ∧
      ((((⟨⟨1, 60000, 100, "db"⟩, CircuitBreakerState.CLOSED, 0, 0, 0⟩ : CircuitBreaker).execute
          0 0 (Except.error (Err.op "x") : Except Err Unit)).breaker.execute
          100 150 (Except.error (Err.op "y") : Except Err Unit)).breaker.nextAttemptTime = 250)) ∧
    (((((⟨⟨1, 60000, 100, "db"⟩, CircuitBreakerState.CLOSED, 0, 0, 0⟩ : CircuitBreaker).execute
          0 0 (Except.error (Err.op "x") : Except Err Unit)).breaker.execute
          100 150 (Except.ok () : Except Err Unit)).breaker.state =
        CircuitBreakerState.CLOSED) ∧
      ((((⟨⟨1, 60000, 100, "db"⟩, CircuitBreakerState.CLOSED, 0, 0, 0⟩ : CircuitBreaker).execute
          0 0 (Except.error (Err.op "x") : Except Err Unit)).breaker.execute
          100 150 (Except.ok () : Except Err Unit)).breaker.failureCount = 0)) := by
  have h := half_open_trial ⟨1, 60000, 100, "db"⟩ (by decide) _
    (Reachable.step _ 0 0 (Except.error (Err.op "x")) Reachable.init)
    (by decide) 100 (by decide)
  exact ⟨h.2.1 150 (Err.op "y"), h.2.2 150⟩

/-- The retry loop on an operation that fails on every attempt: it runs
through all remaining attempts and surfaces the final attempt's error. -/
theorem loop_all_fail (options : RetryOptions) (fn : Nat → Except Err α) (errs : Nat → Err)
    (hf : ∀ i, fn i = Except.error (errs i)) :
    ∀ (n attempt delay : Nat), options.attempts - attempt = n → attempt ≤ options.attempts →
      (RetryService.loop options (fun a _ => (fn a, ())) attempt delay ()).result =
        Except.error (errs options.attempts) ∧
      (RetryService.loop options (fun a _ => (fn a, ())) attempt delay ()).calls =
        options.attempts - attempt + 1 := by
  intro n
  induction n with
  | zero =>
    intro attempt delay hsub hle
    have heq : attempt = options.attempts := by omega
    rw [RetryService.loop]
    simp [hle, hf, heq]
  | succ n ih =>
    intro attempt delay hsub hle
    have hne : attempt ≠ options.attempts := by omega
    have hrec := ih (attempt + 1) (nextDelay options delay) (by omega) (by omega)
    rw [RetryService.loop]
    simp only [hle, dif_pos, hf attempt, hne, if_neg]
    simp [hrec.1, hrec.2]
    omega

/-- The retry loop on an operation that fails on its first `k` invocations
and succeeds on invocation `k + 1 ≤ maxAttempts`: it returns the success
after exactly `k + 1` calls. -/
theorem loop_fail_then_ok (options : RetryOptions) (fn : Nat → Except Err α)
    (k : Nat) (v : α) (hfail : ∀ i, 1 ≤ i → i ≤ k → ∃ e, fn i = Except.error e)
    (hok : fn (k + 1) = Except.ok v) (hk : k + 1 ≤ options.attempts) :
    ∀ (n attempt delay : Nat), k + 1 - attempt = n → 1 ≤ attempt → attempt ≤ k + 1 →
      (RetryService.loop options (fun a _ => (fn a, ())) attempt delay ()).result =
        Except.ok v ∧
      (RetryService.loop options (fun a _ => (fn a, ())) attempt delay ()).calls =
        k + 1 - attempt + 1 := by
  intro n
  induction n with
  | zero =>
    intro attempt delay hsub h1 hle
    have heq : attempt = k + 1 := by omega
    have hA : attempt ≤ options.attempts := by omega
    rw [RetryService.loop]
    simp [hA, heq, hok, hk]
  | succ n ih =>
    intro attempt delay hsub h1 hle
    have hlt : attempt ≤ k := by omega
    obtain ⟨e, he⟩ := hfail attempt h1 hlt
    have hA : attempt ≤ options.attempts := by omega
    have hne : attempt ≠ options.attempts := by omega
    have hrec := ih (attempt + 1) (nextDelay options delay) (by omega) (by omega) (by omega)
    rw [RetryService.loop]
    simp only [hA, dif_pos, he, hne, if_neg]
    simp [hrec.1, hrec.2]
    omega

/-- **C5**: with `maxAttempts = M ≥ 1`, an operation failing on its first
`k < M` invocations and succeeding on the next is invoked exactly `k + 1`
times and the run returns the success; an operation failing on every
invocation is invoked exactly `M` times and the run fails with the error of
the `M`-th attempt (earlier errors are discarded). -/
theorem retry_semantics (options : RetryOptions) (hM : 1 ≤ options.attempts)
    (fn : Nat → Except Err α) (errs : Nat → Err) (k : Nat) (v : α) :
    (k < options.attempts → (∀ i, 1 ≤ i → i ≤ k → ∃ e, fn i = Except.error e) →
      fn (k + 1) = Except.ok v →
      (RetryService.executePure fn options).result = Except.ok v ∧
      (RetryService.executePure fn options).calls = k + 1) ∧
    ((∀ i, fn i = Except.error (errs i)) →
      (RetryService.executePure fn options).result = Except.error (errs options.attempts) ∧
      (RetryService.executePure fn options).calls = options.attempts) := by
  constructor
  · intro hk hfail hok
    have := loop_fail_then_ok options fn k v hfail hok (by omega) k 1 options.delay
      (by omega) (by omega) (by omega)
    unfold RetryService.executePure RetryService.execute
    exact ⟨this.1, by rw [this.2]; omega⟩
  · intro hf
    have := loop_all_fail options fn errs hf (options.attempts - 1) 1 options.delay
      (by omega) (by omega)
    unfold RetryService.executePure RetryService.execute
    exact ⟨this.1, by rw [this.2]; omega⟩

/-- Witness for C5: with 5 attempts, an operation failing twice then
succeeding with 42 is called 3 times; an operation failing always with
attempt-indexed errors is called 5 times and surfaces the 5th error. -/
theorem retry_semantics_witness :
    ((RetryService.executePure
        (fun i => if i ≤ 2 then Except.error (Err.op "boom") else Except.ok 42)
        ⟨5, 10, false, none, none⟩).result = Except.ok 42 ∧
      (RetryService.executePure
        (fun i => if i ≤ 2 then Except.error (Err.op "boom") else Except.ok 42)
        ⟨5, 10, false, none, none⟩).calls = 3) ∧
    ((RetryService.executePure
        (fun i => (Except.error (Err.timeout i) : Except Err Nat))
        ⟨5, 10, false, none, none⟩).result = Except.error (Err.timeout 5) ∧
      (RetryService.executePure
        (fun i => (Except.error (Err.timeout i) : Except Err Nat))
        ⟨5, 10, false, none, none⟩).calls = 5) := by
  constructor
  · exact (retry_semantics ⟨5, 10, false, none, none⟩ (by decide)
      (fun i => if i ≤ 2 then Except.error (Err.op "boom") else Except.ok 42)
      (fun _ => Err.undef) 2 42).1 (by decide)
      (fun i h1 h2 => ⟨Err.op "boom", by simp [Nat.le_of_lt_succ, h2]⟩) (by decide)
  · exact (retry_semantics ⟨5, 10, false, none, none⟩ (by decide)
      (fun i => (Except.error (Err.timeout i) : Except Err Nat))
      (fun i => Err.timeout i) 0 0).2 (fun i => rfl)

/-- The waits list of a loop run is empty, or starts with the current delay
followed by the waits of the continuation run at the backed-off delay. -/
theorem loop_waits_shape (options : RetryOptions) (fn : Nat → σ → Except Err α × σ)
    (attempt delay : Nat) (s : σ) :
    (RetryService.loop options fn attempt delay s).waits = [] ∨
    ∃ s1, (RetryService.loop options fn attempt delay s).waits =
      delay :: (RetryService.loop options fn (attempt + 1) (nextDelay options delay) s1).waits := by
  rw [RetryService.loop]
  by_cases hle : attempt ≤ options.attempts
  · rcases hfn : fn attempt s with ⟨res, s1⟩
    cases res with
    | ok v => simp [hle, hfn]
    | error e =>
      by_cases heq : attempt = options.attempts
      · simp [hle, hfn, heq]
      · simp only [hle, dif_pos, hfn, heq, if_neg]
        exact Or.inr ⟨s1, by simp⟩
  · simp [hle]

/-- With exponential backoff capped by `maxDelay = C > 0`, every wait the
loop sleeps from a point where the pending delay is `delay` is at most
`max delay C` (the pending delay itself may exceed the cap; all later
delays are clamped to `C`). -/
theorem loop_waits_le (options : RetryOptions) (hexp : options.exponentialBackoff = true)
    (C : Nat) (hcap : options.maxDelay = some C) (hC : 0 < C)
    (fn : Nat → σ → Except Err α × σ) :
    ∀ (n attempt delay : Nat) (s : σ), options.attempts - attempt = n →
      ∀ w ∈ (RetryService.loop options fn attempt delay s).waits, w ≤ max delay C := by
  intro n
  induction n with
  | zero =>
    intro attempt delay s hsub
    rw [RetryService.loop]
    by_cases hle : attempt ≤ options.attempts
    · have heq : attempt = options.attempts := by omega
      rcases hfn : fn attempt s with ⟨res, s1⟩
      cases res <;> simp [hle, hfn, heq]
    · simp [hle]
  | succ n ih =>
    intro attempt delay s hsub
    have hle : attempt ≤ options.attempts := by omega
    have hne : attempt ≠ options.attempts := by omega
    rcases hfn : fn attempt s with ⟨res, s1⟩
    cases res with
    | ok v =>
      have hred : (RetryService.loop options fn attempt delay s).waits = [] := by
        rw [RetryService.loop]; simp [hle, hfn]
      rw [hred]; simp
    | error e =>
      have hred : (RetryService.loop options fn attempt delay s).waits =
          delay ::
            (RetryService.loop options fn (attempt + 1) (nextDelay options delay) s1).waits := by
        rw [RetryService.loop]; simp [hle, hfn, hne]
      rw [hred]
      intro w hw
      rcases List.mem_cons.mp hw with rfl | hw
      · exact Nat.le_max_left _ _
      · have hd : nextDelay options delay ≤ C := by
          simp [nextDelay, hexp, hcap, orDefault, Nat.pos_iff_ne_zero.mp hC]
        have := ih (attempt + 1) (nextDelay options delay) s1 (by omega) w hw
        calc w ≤ max (nextDelay options delay) C := this
          _ = C := Nat.max_eq_right hd
          _ ≤ max delay C := Nat.le_max_right _ _

/-- **C6** (amended): with exponential backoff and no cap, the wait before
attempt 3 is exactly twice the base delay (hence at least `2 * D`); with a
cap `maxDelayMs = C > 0`, every wait after the first is at most `C` and
every wait is at most `max baseDelay C`.  The first wait is the uncapped
base delay, so a base delay above the cap makes the first wait exceed it —
see `backoff_cap_counterexample`. -/
theorem backoff_bounds (options : RetryOptions) (hexp : options.exponentialBackoff = true)
    (fn : Nat → Except Err α) :
    (options.maxDelay = none →
      2 ≤ (RetryService.executePure fn options).waits.length →
      (RetryService.executePure fn options).waits.getD 1 0 = 2 * options.delay) ∧
    (∀ C, options.maxDelay = some C → 0 < C →
      (∀ w ∈ (RetryService.executePure fn options).waits.tail, w ≤ C) ∧
      (∀ w ∈ (RetryService.executePure fn options).waits, w ≤ max options.delay C)) := by
  constructor
  · intro hnone h2
    unfold RetryService.executePure RetryService.execute at h2 ⊢
    rcases loop_waits_shape options (fun a _ => (fn a, ())) 1 options.delay () with h | ⟨s1, h⟩
    · rw [h] at h2; simp at h2
    · rw [h] at h2 ⊢
      rcases loop_waits_shape options (fun a _ => (fn a, ())) 2
          (nextDelay options options.delay) s1 with h' | ⟨s2, h'⟩
      · rw [h'] at h2; simp at h2
      · rw [h']
        have : nextDelay options options.delay = 2 * options.delay := by
          simp only [nextDelay, hexp, if_pos, hnone, orDefault]
          omega
        simp [this]
  · intro C hcap hC
    constructor
    · intro w hw
      unfold RetryService.executePure RetryService.execute at hw
      rcases loop_waits_shape options (fun a _ => (fn a, ())) 1 options.delay () with h | ⟨s1, h⟩
      · rw [h] at hw; simp at hw
      · rw [h] at hw
        simp only [List.tail_cons] at hw
        have hd : nextDelay options options.delay ≤ C := by
          simp [nextDelay, hexp, hcap, orDefault, Nat.pos_iff_ne_zero.mp hC]
        have := loop_waits_le options hexp C hcap hC (fun a _ => (fn a, ()))
          (options.attempts - 2) 2 (nextDelay options options.delay) s1 (by omega) w hw
        calc w ≤ max (nextDelay options options.delay) C := this
          _ = C := Nat.max_eq_right hd
    · intro w hw
      unfold RetryService.executePure RetryService.execute at hw
      exact loop_waits_le options hexp C hcap hC (fun a _ => (fn a, ()))
        (options.attempts - 1) 1 options.delay () (by omega) w hw

/-- **C6 counterexample**: retry options
`{attempts: 3, delay: 100, exponentialBackoff: true, maxDelay: 10}` against
an always-failing operation sleep `[100, 10]`: the first wait is the
uncapped base delay `100 > 10`, refuting "no inter-attempt wait ever
exceeds `maxDelayMs`". -/
theorem backoff_cap_counterexample :
    (RetryService.executePure (fun _ => (Except.error (Err.op "boom") : Except Err Nat))
        ⟨3, 100, true, some 10, none⟩).waits = [100, 10] ∧
    ¬ (∀ w ∈ (RetryService.executePure
          (fun _ => (Except.error (Err.op "boom") : Except Err Nat))
          ⟨3, 100, true, some 10, none⟩).waits, w ≤ 10) := by
  have hw : (RetryService.executePure (fun _ => (Except.error (Err.op "boom") : Except Err Nat))
      ⟨3, 100, true, some 10, none⟩).waits = [100, 10] := by
    simp [RetryService.executePure, RetryService.execute, RetryService.loop, nextDelay, orDefault]
  refine ⟨hw, fun hall => ?_⟩
  have := hall 100 (by rw [hw]; simp)
  omega

/-- Witness for the amended C6: no cap — the second wait is `2 * 10`; cap
15 — every wait after the first is ≤ 15 and every wait is ≤ max 10 15. -/
theorem backoff_bounds_witness :
    ((RetryService.executePure (fun _ => (Except.error (Err.op "boom") : Except Err Nat))
        ⟨3, 10, true, none, none⟩).waits.getD 1 0 = 2 * 10) ∧
    (∀ w ∈ (RetryService.executePure (fun _ => (Except.error (Err.op "boom") : Except Err Nat))
        ⟨3, 10, true, some 15, none⟩).waits.tail, w ≤ 15) ∧
    (∀ w ∈ (RetryService.executePure (fun _ => (Except.error (Err.op "boom") : Except Err Nat))
        ⟨3, 10, true, some 15, none⟩).waits, w ≤ max 10 15) := by
  refine ⟨?_, ?_, ?_⟩
  · exact (backoff_bounds ⟨3, 10, true, none, none⟩ rfl
      (fun _ => (Except.error (Err.op "boom") : Except Err Nat))).1 rfl
      (by simp [RetryService.executePure, RetryService.execute, RetryService.loop,
        nextDelay, orDefault])
  · exact ((backoff_bounds ⟨3, 10, true, some 15, none⟩ rfl
      (fun _ => (Except.error (Err.op "boom") : Except Err Nat))).2 15 rfl (by decide)).1
  · exact ((backoff_bounds ⟨3, 10, true, some 15, none⟩ rfl
      (fun _ => (Except.error (Err.op "boom") : Except Err Nat))).2 15 rfl (by decide)).2

/-- **C7** (amended): an operation that settles strictly before the
deadline has its outcome — value or its own error — propagated unchanged;
if the deadline fires first, the executor fails with the timeout Error
carrying the configured `timeoutMs`.  The configured `name` is reported to
the observability sink only (metrics/log), not carried in the error — see
`timeout_error_counterexample`. -/
theorem timeout_race (opDuration : Nat) (res : Except Err α) (options : TimeoutOptions) :
    (opDuration < options.timeout →
      TimeoutService.execute opDuration res options = res) ∧
    (options.timeout ≤ opDuration →
      TimeoutService.execute opDuration res options =
        Except.error (Err.timeout options.timeout)) := by
  constructor
  · intro h; simp [TimeoutService.execute, h]
  · intro h; simp [TimeoutService.execute, Nat.not_lt.mpr h]

/-- Witness for C7: before the 100ms deadline both a value and the
operation's own error pass through unchanged; past the deadline the run
fails with the timeout error for 100ms. -/
theorem timeout_race_witness :
    TimeoutService.execute 5 (Except.ok 42) ⟨100, some "database"⟩ = Except.ok 42 ∧
    TimeoutService.execute 5 (Except.error (Err.op "boom") : Except Err Nat)
        ⟨100, some "database"⟩ = Except.error (Err.op "boom") ∧
    TimeoutService.execute 200 (Except.ok 42) ⟨100, some "database"⟩ =
      Except.error (Err.timeout 100) := by
  refine ⟨?_, ?_, ?_⟩
  · exact (timeout_race 5 (Except.ok 42) ⟨100, some "database"⟩).1 (by decide)
  · exact (timeout_race 5 (Except.error (Err.op "boom") : Except Err Nat)
      ⟨100, some "database"⟩).1 (by decide)
  · exact (timeout_race 200 (Except.ok 42) ⟨100, some "database"⟩).2 (by decide)

/-- **C7 counterexample**: with configured name "database" and timeout
100ms, a timed-out call fails with the Error whose message is
"Operation timed out after 100ms": the configured name occurs nowhere in
the error (not an infix of its message), and the error is identical under
a different configured name — the error does not carry the name. -/
theorem timeout_error_counterexample :
    TimeoutService.execute 200 (Except.ok 42) ⟨100, some "database"⟩ =
      Except.error (Err.timeout 100) ∧
    ¬ ("database".toList <:+: (Err.timeout 100).message.toList) ∧
    TimeoutService.execute 200 (Except.ok 42) ⟨100, some "database"⟩ =
      TimeoutService.execute 200 (Except.ok 42) ⟨100, some "elsewhere"⟩ := by
  exact ⟨by decide, by decide, rfl⟩

/-- Without a breaker in the threaded state, every retry attempt invokes
the raw operation: the state keeps no breaker and counts one invocation
per loop call. -/
theorem loop_no_breaker (timeoutMs : Option Nat) (name : String) (op : Nat → OpRun α)
    (tGate : Nat → Nat) (options : RetryOptions) :
    ∀ (n attempt delay k : Nat), options.attempts - attempt = n →
      (RetryService.loop options (attemptOnce timeoutMs name op tGate) attempt delay
          (none, k)).state.1 = none ∧
      (RetryService.loop options (attemptOnce timeoutMs name op tGate) attempt delay
          (none, k)).state.2 =
        k + (RetryService.loop options (attemptOnce timeoutMs name op tGate) attempt delay
          (none, k)).calls := by
  intro n
  induction n with
  | zero =>
    intro attempt delay k hsub
    rw [RetryService.loop]
    by_cases hle : attempt ≤ options.attempts
    · have heq : attempt = options.attempts := by omega
      rcases hout : withTimeout timeoutMs name (op (k + 1)) with v | e <;>
        simp [hle, heq, attemptOnce, hout]
    · simp [hle]
  | succ n ih =>
    intro attempt delay k hsub
    have hle : attempt ≤ options.attempts := by omega
    have hne : attempt ≠ options.attempts := by omega
    cases hout : withTimeout timeoutMs name (op (k + 1)) with
    | ok v =>
      have hred : RetryService.loop options (attemptOnce timeoutMs name op tGate) attempt delay
          (none, k) = ⟨Except.ok v, (none, k + 1), 1, []⟩ := by
        rw [RetryService.loop]; simp [hle, attemptOnce, hout]
      rw [hred]
      exact ⟨rfl, rfl⟩
    | error e =>
      have hrec := ih (attempt + 1) (nextDelay options delay) (k + 1) (by omega)
      have hred : RetryService.loop options (attemptOnce timeoutMs name op tGate) attempt delay
          (none, k) =
          ⟨(RetryService.loop options (attemptOnce timeoutMs name op tGate) (attempt + 1)
              (nextDelay options delay) (none, k + 1)).result,
           (RetryService.loop options (attemptOnce timeoutMs name op tGate) (attempt + 1)
              (nextDelay options delay) (none, k + 1)).state,
           (RetryService.loop options (attemptOnce timeoutMs name op tGate) (attempt + 1)
              (nextDelay options delay) (none, k + 1)).calls + 1,
           delay :: (RetryService.loop options (attemptOnce timeoutMs name op tGate) (attempt + 1)
              (nextDelay options delay) (none, k + 1)).waits⟩ := by
        rw [RetryService.loop]; simp [hle, hne, attemptOnce, hout]
      rw [hred]
      exact ⟨hrec.1, by simpa [Nat.add_comm, Nat.add_assoc, Nat.add_left_comm] using hrec.2⟩

/-- **C1** (amended): `circuitBreaker: false` suppresses breaker creation
only.  When no breaker is registered under the name, the call runs with no
circuit-breaker gating (every attempt invokes the operation — invocations
equal retry calls) and no breaker state is created or updated (the service
comes back unchanged).  A breaker already registered under the name is
still applied despite `circuitBreaker: false` — see
`disabled_breaker_counterexample`. -/
theorem disabled_breaker_unregistered (svc : ResilienceService) (name : String)
    (op : Nat → OpRun α) (options : ExecOptions) (tGate : Nat → Nat)
    (hreg : svc.getCircuitBreaker name = none)
    (hcb : options.circuitBreaker = CBChoice.disabled) :
    (svc.executeWithResilience name op options tGate).service = svc ∧
    (svc.executeWithResilience name op options tGate).opInvocations =
      (svc.executeWithResilience name op options tGate).calls := by
  have hres : svc.resolveBreaker name options.circuitBreaker = (none, svc) := by
    simp [ResilienceService.resolveBreaker, hreg, hcb]
  cases hret : options.retry with
  | none =>
    simp [ResilienceService.executeWithResilience, hres, hret, attemptOnce]
  | some pr =>
    have hl := loop_no_breaker (timeoutMsOf options svc.config) name op tGate
      { attempts := orDefault pr.attempts svc.config.retryAttempts
        delay := orDefault pr.delay svc.config.retryDelay
        exponentialBackoff := pr.exponentialBackoff
        maxDelay := pr.maxDelay
        name := some name }
      (orDefault pr.attempts svc.config.retryAttempts - 1) 1
      (orDefault pr.delay svc.config.retryDelay) 0 rfl
    simp [ResilienceService.executeWithResilience, hres, hret, RetryService.execute] at hl ⊢
    rw [hl.1]
    simpa using hl.2

/-- Witness for the amended C1: an empty registry, `circuitBreaker: false`
and a 2-attempt retry — the service is unchanged and the operation is
invoked once per retry call. -/
theorem disabled_breaker_unregistered_witness :
    (((ResilienceService.mk [] {}).executeWithResilience "db"
        (fun _ => (⟨0, Except.error (Err.op "boom")⟩ : OpRun Nat))
        ⟨CBChoice.disabled, some ⟨some 2, some 1, false, none⟩, none⟩
        (fun _ => 0)).service = ResilienceService.mk [] {}) ∧
    (((ResilienceService.mk [] {}).executeWithResilience "db"
        (fun _ => (⟨0, Except.error (Err.op "boom")⟩ : OpRun Nat))
        ⟨CBChoice.disabled, some ⟨some 2, some 1, false, none⟩, none⟩
        (fun _ => 0)).opInvocations =
      ((ResilienceService.mk [] {}).executeWithResilience "db"
        (fun _ => (⟨0, Except.error (Err.op "boom")⟩ : OpRun Nat))
        ⟨CBChoice.disabled, some ⟨some 2, some 1, false, none⟩, none⟩
        (fun _ => 0)).calls) := by
  exact disabled_breaker_unregistered (ResilienceService.mk [] {}) "db"
    (fun _ => (⟨0, Except.error (Err.op "boom")⟩ : OpRun Nat))
    ⟨CBChoice.disabled, some ⟨some 2, some 1, false, none⟩, none⟩
    (fun _ => 0) rfl rfl

/-- **C1 counterexample**: a breaker named "db" already registered and OPEN
(window not yet elapsed) is applied even though the call passes
`circuitBreaker: false`: the call is rejected with the breaker's
CircuitOpenError and the operation is never invoked. -/
theorem disabled_breaker_counterexample :
    ((ResilienceService.mk
        [("db", ⟨⟨5, 60000, 30000, "db"⟩, CircuitBreakerState.OPEN, 5, 0, 1000⟩)] {}
      ).executeWithResilience "db" (fun _ => (⟨0, Except.ok 42⟩ : OpRun Nat))
        { circuitBreaker := CBChoice.disabled } (fun _ => 0)).result =
      Except.error (Err.circuitOpen "db") ∧
    ((ResilienceService.mk
        [("db", ⟨⟨5, 60000, 30000, "db"⟩, CircuitBreakerState.OPEN, 5, 0, 1000⟩)] {}
      ).executeWithResilience "db" (fun _ => (⟨0, Except.ok 42⟩ : OpRun Nat))
        { circuitBreaker := CBChoice.disabled } (fun _ => 0)).opInvocations = 0 := by
  exact ⟨by decide, by decide⟩

/-- **C9** (amended): a breaker already registered under a name is reused
by the coordinator's lookup-or-create (`executeWithResilience`
lines 196-200): the registered instance itself is returned, with its
accumulated state, the registry is untouched, and no fresh breaker is
created — whatever the per-call breaker options.  An explicit
`createCircuitBreaker` call for an existing name, however, replaces the
registered breaker with a fresh zero-state one — see
`create_replaces_breaker_counterexample`. -/
theorem registered_breaker_reused (svc : ResilienceService) (name : String)
    (cb : CircuitBreaker) (hreg : svc.getCircuitBreaker name = some cb)
    (choice : CBChoice) :
    svc.resolveBreaker name choice = (some cb, svc) := by
  simp [ResilienceService.resolveBreaker, hreg]

/-- Witness for the amended C9: the registered "db" breaker with two
accumulated failures is handed back as-is by lookup-or-create, for each of
the three breaker-option shapes. -/
theorem registered_breaker_reused_witness :
    (ResilienceService.mk
        [("db", ⟨⟨5, 60000, 30000, "db"⟩, CircuitBreakerState.CLOSED, 2, 7, 0⟩)] {}
      ).resolveBreaker "db" CBChoice.unset =
      (some ⟨⟨5, 60000, 30000, "db"⟩, CircuitBreakerState.CLOSED, 2, 7, 0⟩,
        ResilienceService.mk
          [("db", ⟨⟨5, 60000, 30000, "db"⟩, CircuitBreakerState.CLOSED, 2, 7, 0⟩)] {}) ∧
    (ResilienceService.mk
        [("db", ⟨⟨5, 60000, 30000, "db"⟩, CircuitBreakerState.CLOSED, 2, 7, 0⟩)] {}
      ).resolveBreaker "db" CBChoice.disabled =
      (some ⟨⟨5, 60000, 30000, "db"⟩, CircuitBreakerState.CLOSED, 2, 7, 0⟩,
        ResilienceService.mk
          [("db", ⟨⟨5, 60000, 30000, "db"⟩, CircuitBreakerState.CLOSED, 2, 7, 0⟩)] {}) := by
  constructor
  · exact registered_breaker_reused
      (ResilienceService.mk
        [("db", ⟨⟨5, 60000, 30000, "db"⟩, CircuitBreakerState.CLOSED, 2, 7, 0⟩)] {}) "db"
      ⟨⟨5, 60000, 30000, "db"⟩, CircuitBreakerState.CLOSED, 2, 7, 0⟩ (by decide)
      CBChoice.unset
  · exact registered_breaker_reused
      (ResilienceService.mk
        [("db", ⟨⟨5, 60000, 30000, "db"⟩, CircuitBreakerState.CLOSED, 2, 7, 0⟩)] {}) "db"
      ⟨⟨5, 60000, 30000, "db"⟩, CircuitBreakerState.CLOSED, 2, 7, 0⟩ (by decide)
      CBChoice.disabled

/-- **C9 counterexample**: `createCircuitBreaker` on a name that is already
registered replaces the registered breaker: the "db" breaker with two
accumulated failures is swapped for a fresh zero-state breaker, so the
accumulated state is destroyed rather than preserved. -/
theorem create_replaces_breaker_counterexample :
    ((ResilienceService.mk
        [("db", ⟨⟨5, 60000, 30000, "db"⟩, CircuitBreakerState.CLOSED, 2, 7, 0⟩)] {}
      ).createCircuitBreaker "db" none).2.getCircuitBreaker "db" =
      some ⟨⟨5, 60000, 30000, "db"⟩, CircuitBreakerState.CLOSED, 0, 0, 0⟩ ∧
    ¬ (((ResilienceService.mk
        [("db", ⟨⟨5, 60000, 30000, "db"⟩, CircuitBreakerState.CLOSED, 2, 7, 0⟩)] {}
      ).createCircuitBreaker "db" none).2.getCircuitBreaker "db" =
      some ⟨⟨5, 60000, 30000, "db"⟩, CircuitBreakerState.CLOSED, 2, 7, 0⟩) := by
  exact ⟨by decide, by decide⟩

/-- A binding found by `Map.get` appears, with its stats, in the snapshot
`getCircuitBreakerStats` builds. -/
theorem mapGet_stats_mem (m : List (String × CircuitBreaker)) (name : String)
    (cb : CircuitBreaker) (h : mapGet m name = some cb) :
    (name, cb.getStats) ∈ m.map (fun p => (p.1, p.2.getStats)) := by
  induction m with
  | nil => simp [mapGet] at h
  | cons p rest ih =>
    obtain ⟨k1, v1⟩ := p
    rw [mapGet] at h
    by_cases hk : k1 = name
    · simp [hk] at h
      simp [hk, h]
    · simp [hk] at h
      simp [ih h]

/-- **C10**: `getState`, `getStats` and the coordinator's
`getCircuitBreakerStats` are pure reads — in this embedding they take no
clock and return values computed from the stored fields alone, with no
state output.  In particular a breaker whose open window has already
elapsed still reports OPEN from all three reads; the OPEN→HALF_OPEN
transition happens only inside `execute`, whose next call gates the
breaker to HALF_OPEN and invokes the operation. -/
theorem reads_do_not_transition (cb : CircuitBreaker)
    (hs : cb.state = CircuitBreakerState.OPEN) (now : Nat)
    (hnow : cb.nextAttemptTime ≤ now) :
    cb.getState = CircuitBreakerState.OPEN ∧
    cb.getStats = ⟨CircuitBreakerState.OPEN, cb.failureCount, cb.lastFailureTime⟩ ∧
    (∀ (svc : ResilienceService) (name : String),
      svc.getCircuitBreaker name = some cb →
      (name, (⟨CircuitBreakerState.OPEN, cb.failureCount, cb.lastFailureTime⟩ : CBStats)) ∈
        svc.getCircuitBreakerStats) ∧
    (∀ (settleTime : Nat) (res : Except Err Unit),
      cb.gate now = some { cb with state := CircuitBreakerState.HALF_OPEN } ∧
      (cb.execute now settleTime res).invoked = true) := by
  have hgate : cb.gate now = some { cb with state := CircuitBreakerState.HALF_OPEN } := by
    simp [CircuitBreaker.gate, hs, Nat.not_lt.mpr hnow]
  refine ⟨by simp [CircuitBreaker.getState, hs], by simp [CircuitBreaker.getStats, hs], ?_, ?_⟩
  · intro svc name hreg
    have := mapGet_stats_mem svc.circuitBreakers name cb hreg
    simpa [ResilienceService.getCircuitBreakerStats, CircuitBreaker.getStats, hs] using this
  · intro settleTime res
    refine ⟨hgate, ?_⟩
    cases res <;> simp [CircuitBreaker.execute, hgate]

/-- Witness for C10 on a registered OPEN breaker whose window (until 100)
has elapsed at time 150: the reads still report OPEN, and `execute` at 150
performs the HALF_OPEN transition and invokes. -/
theorem reads_do_not_transition_witness :
    ((⟨⟨5, 60000, 30000, "db"⟩, CircuitBreakerState.OPEN, 5, 9, 100⟩ :
        CircuitBreaker).getState = CircuitBreakerState.OPEN) ∧
    ((⟨⟨5, 60000, 30000, "db"⟩, CircuitBreakerState.OPEN, 5, 9, 100⟩ :
        CircuitBreaker).getStats = ⟨CircuitBreakerState.OPEN, 5, 9⟩) ∧
    (("db", (⟨CircuitBreakerState.OPEN, 5, 9⟩ : CBStats)) ∈
      (ResilienceService.mk
        [("db", ⟨⟨5, 60000, 30000, "db"⟩, CircuitBreakerState.OPEN, 5, 9, 100⟩)] {}
      ).getCircuitBreakerStats) ∧
    (((⟨⟨5, 60000, 30000, "db"⟩, CircuitBreakerState.OPEN, 5, 9, 100⟩ :
        CircuitBreaker).execute 150 150 (Except.ok () : Except Err Unit)).invoked = true) := by
  have h := reads_do_not_transition
    ⟨⟨5, 60000, 30000, "db"⟩, CircuitBreakerState.OPEN, 5, 9, 100⟩ rfl 150 (by decide)
  exact ⟨h.1, h.2.1, h.2.2.1 _ "db" rfl, (h.2.2.2 150 (Except.ok ())).2⟩

/-- Once the threaded breaker is OPEN and the (constant) gate time is
still inside its window, every remaining retry attempt is rejected by the
gate: no further operation invocations, the breaker untouched, and the run
surfaces the CircuitOpenError. -/
theorem loop_open_rejects (timeoutMs : Option Nat) (name : String) (op : Nat → OpRun α)
    (g : Nat) (options : RetryOptions) (cb : CircuitBreaker)
    (hs : cb.state = CircuitBreakerState.OPEN) (hg : g < cb.nextAttemptTime) :
    ∀ (n attempt delay k : Nat), options.attempts - attempt = n →
      attempt ≤ options.attempts →
      (RetryService.loop options (attemptOnce timeoutMs name op (fun _ => g)) attempt delay
          (some cb, k)).result = Except.error (Err.circuitOpen cb.options.name) ∧
      (RetryService.loop options (attemptOnce timeoutMs name op (fun _ => g)) attempt delay
          (some cb, k)).state = (some cb, k) ∧
      (RetryService.loop options (attemptOnce timeoutMs name op (fun _ => g)) attempt delay
          (some cb, k)).calls = options.attempts - attempt + 1 := by
  have hstep : ∀ attempt k, attemptOnce timeoutMs name op (fun _ => g) attempt (some cb, k) =
      (Except.error (Err.circuitOpen cb.options.name), (some cb, k)) := by
    intro attempt k
    simp [attemptOnce, CircuitBreaker.execute, CircuitBreaker.gate, hs, hg]
  intro n
  induction n with
  | zero =>
    intro attempt delay k hsub hle
    have heq : attempt = options.attempts := by omega
    rw [RetryService.loop]
    simp [hle, hstep, heq]
  | succ n ih =>
    intro attempt delay k hsub hle
    have hne : attempt ≠ options.attempts := by omega
    have hrec := ih (attempt + 1) (nextDelay options delay) k (by omega) (by omega)
    have hred : RetryService.loop options (attemptOnce timeoutMs name op (fun _ => g))
        attempt delay (some cb, k) =
        ⟨(RetryService.loop options (attemptOnce timeoutMs name op (fun _ => g)) (attempt + 1)
            (nextDelay options delay) (some cb, k)).result,
         (RetryService.loop options (attemptOnce timeoutMs name op (fun _ => g)) (attempt + 1)
            (nextDelay options delay) (some cb, k)).state,
         (RetryService.loop options (attemptOnce timeoutMs name op (fun _ => g)) (attempt + 1)
            (nextDelay options delay) (some cb, k)).calls + 1,
         delay :: (RetryService.loop options (attemptOnce timeoutMs name op (fun _ => g))
            (attempt + 1) (nextDelay options delay) (some cb, k)).waits⟩ := by
      rw [RetryService.loop]; simp [hle, hne, hstep]
    rw [hred]
    refine ⟨hrec.1, hrec.2.1, ?_⟩
    simp [hrec.2.2]
    omega

/-- One-iteration unfolding of the retry loop when the closure succeeds. -/
theorem loop_of_ok {σ α : Type} (options : RetryOptions) (fn : Nat → σ → Except Err α × σ)
    (attempt delay : Nat) (s s1 : σ) (v : α)
    (hle : attempt ≤ options.attempts) (hfn : fn attempt s = (Except.ok v, s1)) :
    RetryService.loop options fn attempt delay s = ⟨Except.ok v, s1, 1, []⟩ := by
  rw [RetryService.loop]; simp [hle, hfn]

/-- One-iteration unfolding of the retry loop when the final attempt's
closure fails: the loop breaks and surfaces that error. -/
theorem loop_final_of_error {σ α : Type} (options : RetryOptions)
    (fn : Nat → σ → Except Err α × σ) (attempt delay : Nat) (s s1 : σ) (e : Err)
    (heq : attempt = options.attempts) (hA : 1 ≤ attempt)
    (hfn : fn attempt s = (Except.error e, s1)) :
    RetryService.loop options fn attempt delay s = ⟨Except.error e, s1, 1, []⟩ := by
  subst heq
  rw [RetryService.loop]; simp [hfn, Nat.le_refl]

/-- One-iteration unfolding of the retry loop when a non-final attempt's
closure fails: the loop sleeps `delay` and re-enters with the backed-off
delay and the threaded state the failing attempt produced. -/
theorem loop_cons_of_error {σ α : Type} (options : RetryOptions)
    (fn : Nat → σ → Except Err α × σ) (attempt delay : Nat) (s s1 : σ) (e : Err)
    (hle : attempt ≤ options.attempts) (hne : attempt ≠ options.attempts)
    (hfn : fn attempt s = (Except.error e, s1)) :
    (RetryService.loop options fn attempt delay s).result =
      (RetryService.loop options fn (attempt + 1) (nextDelay options delay) s1).result ∧
    (RetryService.loop options fn attempt delay s).state =
      (RetryService.loop options fn (attempt + 1) (nextDelay options delay) s1).state ∧
    (RetryService.loop options fn attempt delay s).calls =
      (RetryService.loop options fn (attempt + 1) (nextDelay options delay) s1).calls + 1 ∧
    (RetryService.loop options fn attempt delay s).waits =
      delay :: (RetryService.loop options fn (attempt + 1) (nextDelay options delay) s1).waits := by
  refine ⟨?_, ?_, ?_, ?_⟩ <;>
    (conv in RetryService.loop options fn attempt delay s => rw [RetryService.loop]) <;>
    simp [hle, hne, hfn]

/-- The retry loop over a CLOSED breaker with an operation whose effective
(timeout-wrapped) outcome fails on every invocation, all gate checks at a
fixed instant `g`: if the remaining attempts cannot reach the threshold,
every attempt invokes the operation and the run surfaces the final
attempt's effective error; otherwise the breaker opens mid-run after
exactly `threshold - failureCount` further invocations and every later
attempt is rejected, the run surfacing the CircuitOpenError. -/
theorem loop_closed_all_fail (timeoutMs : Option Nat) (name : String) (op : Nat → OpRun α)
    (g : Nat) (options : RetryOptions) (effErr : Nat → Err)
    (herr : ∀ j, withTimeout timeoutMs name (op j) = Except.error (effErr j)) :
    ∀ (n attempt delay k : Nat) (cb : CircuitBreaker),
      options.attempts - attempt = n →
      1 ≤ attempt →
      attempt ≤ options.attempts →
      cb.state = CircuitBreakerState.CLOSED →
      cb.failureCount < cb.options.threshold →
      0 < cb.options.resetTimeout →
      ((options.attempts - attempt + 1 ≤ cb.options.threshold - cb.failureCount →
        (RetryService.loop options (attemptOnce timeoutMs name op (fun _ => g)) attempt delay
            (some cb, k)).result =
          Except.error (effErr (k + (options.attempts - attempt + 1))) ∧
        (RetryService.loop options (attemptOnce timeoutMs name op (fun _ => g)) attempt delay
            (some cb, k)).state.2 = k + (options.attempts - attempt + 1) ∧
        (RetryService.loop options (attemptOnce timeoutMs name op (fun _ => g)) attempt delay
            (some cb, k)).calls = options.attempts - attempt + 1) ∧
      (cb.options.threshold - cb.failureCount < options.attempts - attempt + 1 →
        (RetryService.loop options (attemptOnce timeoutMs name op (fun _ => g)) attempt delay
            (some cb, k)).result = Except.error (Err.circuitOpen cb.options.name) ∧
        (RetryService.loop options (attemptOnce timeoutMs name op (fun _ => g)) attempt delay
            (some cb, k)).state.2 = k + (cb.options.threshold - cb.failureCount) ∧
        (RetryService.loop options (attemptOnce timeoutMs name op (fun _ => g)) attempt delay
            (some cb, k)).calls = options.attempts - attempt + 1 ∧
        (∃ cb2, (RetryService.loop options (attemptOnce timeoutMs name op (fun _ => g))
            attempt delay (some cb, k)).state.1 = some cb2 ∧
          cb2.state = CircuitBreakerState.OPEN))) := by
  intro n
  induction n with
  | zero =>
    intro attempt delay k cb hsub h1a hle hclosed hcount hR
    have heq : attempt = options.attempts := by omega
    have hstep : attemptOnce timeoutMs name op (fun _ => g) attempt (some cb, k) =
        (Except.error (effErr (k + 1)),
          (some (cb.onFailure (g + withTimeoutDuration timeoutMs (op (k + 1)))), k + 1)) := by
      simp [attemptOnce, CircuitBreaker.execute, CircuitBreaker.gate, hclosed, herr]
    have hfin := loop_final_of_error options (attemptOnce timeoutMs name op (fun _ => g))
      attempt delay (some cb, k)
      (some (cb.onFailure (g + withTimeoutDuration timeoutMs (op (k + 1)))), k + 1)
      (effErr (k + 1)) heq h1a hstep
    constructor
    · intro _
      rw [hfin]
      have h1 : options.attempts - attempt + 1 = 1 := by omega
      rw [h1]
      exact ⟨rfl, rfl, rfl⟩
    · intro hlt
      exact absurd hlt (by omega)
  | succ n ih =>
    intro attempt delay k cb hsub h1a hle hclosed hcount hR
    have hne : attempt ≠ options.attempts := by omega
    have hstep : attemptOnce timeoutMs name op (fun _ => g) attempt (some cb, k) =
        (Except.error (effErr (k + 1)),
          (some (cb.onFailure (g + withTimeoutDuration timeoutMs (op (k + 1)))), k + 1)) := by
      simp [attemptOnce, CircuitBreaker.execute, CircuitBreaker.gate, hclosed, herr]
    by_cases hB : cb.options.threshold ≤ cb.failureCount + 1
    · -- the breaker opens on this attempt; all later attempts are rejected
      have hone : cb.options.threshold - cb.failureCount = 1 := by omega
      have hfB : cb.onFailure (g + withTimeoutDuration timeoutMs (op (k + 1))) =
          { cb with failureCount := cb.failureCount + 1,
                    lastFailureTime := g + withTimeoutDuration timeoutMs (op (k + 1)),
                    state := CircuitBreakerState.OPEN,
                    nextAttemptTime := g + withTimeoutDuration timeoutMs (op (k + 1)) +
                      cb.options.resetTimeout } := by
        simp [CircuitBreaker.onFailure, hB]
      rw [hfB] at hstep
      have hcons := loop_cons_of_error options (attemptOnce timeoutMs name op (fun _ => g))
        attempt delay (some cb, k) _ _ hle hne hstep
      have hopen := loop_open_rejects timeoutMs name op g options
        { cb with failureCount := cb.failureCount + 1,
                  lastFailureTime := g + withTimeoutDuration timeoutMs (op (k + 1)),
                  state := CircuitBreakerState.OPEN,
                  nextAttemptTime := g + withTimeoutDuration timeoutMs (op (k + 1)) +
                    cb.options.resetTimeout }
        rfl
        (show g < g + withTimeoutDuration timeoutMs (op (k + 1)) + cb.options.resetTimeout
          by omega)
        n (attempt + 1) (nextDelay options delay) (k + 1) (by omega) (by omega)
      constructor
      · intro habs
        exact absurd habs (by omega)
      · intro _
        refine ⟨?_, ?_, ?_, ?_⟩
        · rw [hcons.1, hopen.1]
        · rw [hcons.2.1, hopen.2.1]
          show k + 1 = k + (cb.options.threshold - cb.failureCount)
          omega
        · rw [hcons.2.2.1, hopen.2.2]
          omega
        · rw [hcons.2.1, hopen.2.1]
          exact ⟨_, rfl, rfl⟩
    · -- still below threshold: the breaker stays CLOSED and the loop recurses
      have hfA : cb.onFailure (g + withTimeoutDuration timeoutMs (op (k + 1))) =
          { cb with failureCount := cb.failureCount + 1,
                    lastFailureTime := g + withTimeoutDuration timeoutMs (op (k + 1)) } := by
        simp [CircuitBreaker.onFailure, hB]
      rw [hfA] at hstep
      have hcons := loop_cons_of_error options (attemptOnce timeoutMs name op (fun _ => g))
        attempt delay (some cb, k) _ _ hle hne hstep
      have hrec := ih (attempt + 1) (nextDelay options delay) (k + 1)
        { cb with failureCount := cb.failureCount + 1,
                  lastFailureTime := g + withTimeoutDuration timeoutMs (op (k + 1)) }
        (by omega) (by omega) (by omega) hclosed
        (show cb.failureCount + 1 < cb.options.threshold by omega) hR
      constructor
      · intro hcond
        have h1 := hrec.1
          (show options.attempts - (attempt + 1) + 1 ≤
            cb.options.threshold - (cb.failureCount + 1) by omega)
        refine ⟨?_, ?_, ?_⟩
        · rw [hcons.1, h1.1]
          have harg : k + 1 + (options.attempts - (attempt + 1) + 1) =
              k + (options.attempts - attempt + 1) := by omega
          rw [harg]
        · rw [hcons.2.1]
          rw [h1.2.1]
          omega
        · rw [hcons.2.2.1, h1.2.2]
          omega
      · intro hcond
        have h2 := hrec.2
          (show cb.options.threshold - (cb.failureCount + 1) <
            options.attempts - (attempt + 1) + 1 by omega)
        refine ⟨?_, ?_, ?_, ?_⟩
        · rw [hcons.1, h2.1]
        · rw [hcons.2.1, h2.2.1]
          show k + 1 + (cb.options.threshold - (cb.failureCount + 1)) =
            k + (cb.options.threshold - cb.failureCount)
          omega
        · rw [hcons.2.2.1, h2.2.2.1]
          omega
        · rw [hcons.2.1]
          exact h2.2.2.2

/-- **C8**: composition order Retry → Circuit Breaker → Timeout →
Operation, observed behaviourally on an operation that fails every
invocation (with its own error when it settles inside the per-attempt
deadline `T`, with a per-attempt TimeoutError when it does not).  Each
retry attempt re-enters the circuit breaker, so the attempts' failures
accumulate toward the breaker's threshold: with threshold `N` below the
`M` retry attempts, the breaker opens during the retry run, the remaining
attempts are rejected without invoking the operation (`N` invocations for
`M` attempts) and the run surfaces the CircuitOpenError; with `M ≤ N`
every attempt invokes the operation and the surfaced error is the `M`-th
attempt's own effective (timeout-wrapped) error — the deadline bounds each
individual attempt, never the whole retry sequence. -/
theorem composition_retry_breaker_timeout
    (svc : ResilienceService) (name : String) (op : Nat → OpRun α) (errs : Nat → Err)
    (N R M T g : Nat) (b : Bool) (dOpt mdOpt : Option Nat)
    (hreg : svc.getCircuitBreaker name = none)
    (hN : 0 < N) (hR : 0 < R) (hM : 0 < M) (hT : 0 < T)
    (herr : ∀ j, (op j).outcome = Except.error (errs j)) :
    (M ≤ N →
      (svc.executeWithResilience name op
        ⟨CBChoice.config ⟨some N, none, some R, none⟩, some ⟨some M, dOpt, b, mdOpt⟩,
          some ⟨some T⟩⟩ (fun _ => g)).result =
        Except.error (if (op M).duration < T then errs M else Err.timeout T) ∧
      (svc.executeWithResilience name op
        ⟨CBChoice.config ⟨some N, none, some R, none⟩, some ⟨some M, dOpt, b, mdOpt⟩,
          some ⟨some T⟩⟩ (fun _ => g)).opInvocations = M ∧
      (svc.executeWithResilience name op
        ⟨CBChoice.config ⟨some N, none, some R, none⟩, some ⟨some M, dOpt, b, mdOpt⟩,
          some ⟨some T⟩⟩ (fun _ => g)).calls = M) ∧
    (N < M →
      (svc.executeWithResilience name op
        ⟨CBChoice.config ⟨some N, none, some R, none⟩, some ⟨some M, dOpt, b, mdOpt⟩,
          some ⟨some T⟩⟩ (fun _ => g)).result = Except.error (Err.circuitOpen name) ∧
      (svc.executeWithResilience name op
        ⟨CBChoice.config ⟨some N, none, some R, none⟩, some ⟨some M, dOpt, b, mdOpt⟩,
          some ⟨some T⟩⟩ (fun _ => g)).opInvocations = N ∧
      (svc.executeWithResilience name op
        ⟨CBChoice.config ⟨some N, none, some R, none⟩, some ⟨some M, dOpt, b, mdOpt⟩,
          some ⟨some T⟩⟩ (fun _ => g)).calls = M) := by
  have hN0 : N ≠ 0 := by omega
  have hR0 : R ≠ 0 := by omega
  have hM0 : M ≠ 0 := by omega
  have hT0 : T ≠ 0 := by omega
  have hres : svc.resolveBreaker name (CBChoice.config ⟨some N, none, some R, none⟩) =
      (some ⟨⟨N, svc.config.cbTimeout, R, name⟩, CircuitBreakerState.CLOSED, 0, 0, 0⟩,
        ResilienceService.mk
          (mapSet svc.circuitBreakers name
            (⟨⟨N, svc.config.cbTimeout, R, name⟩, CircuitBreakerState.CLOSED, 0, 0, 0⟩ :
              CircuitBreaker))
          svc.config) := by
    simp [ResilienceService.resolveBreaker, hreg, ResilienceService.createCircuitBreaker,
      orDefault, hN0, hR0]
  have htm : timeoutMsOf
      ⟨CBChoice.config ⟨some N, none, some R, none⟩, some ⟨some M, dOpt, b, mdOpt⟩,
        some ⟨some T⟩⟩ svc.config = some T := by
    simp [timeoutMsOf, orDefault, hT0]
  have horM : orDefault (some M) svc.config.retryAttempts = M := by simp [orDefault, hM0]
  have herr2 : ∀ j, withTimeout (some T) name (op j) =
      Except.error (if (op j).duration < T then errs j else Err.timeout T) := by
    intro j
    by_cases hd : (op j).duration < T <;>
      simp [withTimeout, TimeoutService.execute, herr j, hd]
  have hprojR : (svc.executeWithResilience name op
      ⟨CBChoice.config ⟨some N, none, some R, none⟩, some ⟨some M, dOpt, b, mdOpt⟩,
        some ⟨some T⟩⟩ (fun _ => g)).result =
      (RetryService.loop ⟨M, orDefault dOpt svc.config.retryDelay, b, mdOpt, some name⟩
        (attemptOnce (some T) name op (fun _ => g)) 1 (orDefault dOpt svc.config.retryDelay)
        (some ⟨⟨N, svc.config.cbTimeout, R, name⟩, CircuitBreakerState.CLOSED, 0, 0, 0⟩,
          0)).result := by
    simp [ResilienceService.executeWithResilience, hres, htm, horM, RetryService.execute]
  have hprojI : (svc.executeWithResilience name op
      ⟨CBChoice.config ⟨some N, none, some R, none⟩, some ⟨some M, dOpt, b, mdOpt⟩,
        some ⟨some T⟩⟩ (fun _ => g)).opInvocations =
      (RetryService.loop ⟨M, orDefault dOpt svc.config.retryDelay, b, mdOpt, some name⟩
        (attemptOnce (some T) name op (fun _ => g)) 1 (orDefault dOpt svc.config.retryDelay)
        (some ⟨⟨N, svc.config.cbTimeout, R, name⟩, CircuitBreakerState.CLOSED, 0, 0, 0⟩,
          0)).state.2 := by
    simp [ResilienceService.executeWithResilience, hres, htm, horM, RetryService.execute]
  have hprojC : (svc.executeWithResilience name op
      ⟨CBChoice.config ⟨some N, none, some R, none⟩, some ⟨some M, dOpt, b, mdOpt⟩,
        some ⟨some T⟩⟩ (fun _ => g)).calls =
      (RetryService.loop ⟨M, orDefault dOpt svc.config.retryDelay, b, mdOpt, some name⟩
        (attemptOnce (some T) name op (fun _ => g)) 1 (orDefault dOpt svc.config.retryDelay)
        (some ⟨⟨N, svc.config.cbTimeout, R, name⟩, CircuitBreakerState.CLOSED, 0, 0, 0⟩,
          0)).calls := by
    simp [ResilienceService.executeWithResilience, hres, htm, horM, RetryService.execute]
  have hmain := loop_closed_all_fail (some T) name op g
    ⟨M, orDefault dOpt svc.config.retryDelay, b, mdOpt, some name⟩
    (fun j => if (op j).duration < T then errs j else Err.timeout T) herr2
    (M - 1) 1 (orDefault dOpt svc.config.retryDelay) 0
    ⟨⟨N, svc.config.cbTimeout, R, name⟩, CircuitBreakerState.CLOSED, 0, 0, 0⟩
    rfl (by omega) (show 1 ≤ M by omega) rfl
    (show (0 : Nat) < N from hN) (show (0 : Nat) < R from hR)
  constructor
  · intro hMN
    have h1 := hmain.1 (show M - 1 + 1 ≤ N - 0 by omega)
    refine ⟨?_, ?_, ?_⟩
    · rw [hprojR, h1.1]
      have hidx : 0 + (M - 1 + 1) = M := by omega
      simp [hidx]
    · rw [hprojI, h1.2.1]
      show 0 + (M - 1 + 1) = M
      omega
    · rw [hprojC, h1.2.2]
      show M - 1 + 1 = M
      omega
  · intro hNM
    have h2 := hmain.2 (show N - 0 < M - 1 + 1 by omega)
    refine ⟨?_, ?_, ?_⟩
    · rw [hprojR, h2.1]
    · rw [hprojI, h2.2.1]
      show 0 + (N - 0) = N
      omega
    · rw [hprojC, h2.2.2.1]
      show M - 1 + 1 = M
      omega

/-- Witness for C8, with threshold 2, reset window 1000ms, 4 retry
attempts, per-attempt deadline 50ms and an operation that always takes
100ms and fails: the breaker opens after 2 invocations, the remaining 2
attempts are rejected, and the run surfaces the CircuitOpenError; with
threshold 3 and only 2 attempts, both attempts run and the surfaced error
is the second attempt's own TimeoutError. -/
theorem composition_retry_breaker_timeout_witness :
    (((ResilienceService.mk [] {}).executeWithResilience "svc"
        (fun _ => (⟨100, Except.error (Err.op "boom")⟩ : OpRun Nat))
        ⟨CBChoice.config ⟨some 2, none, some 1000, none⟩, some ⟨some 4, some 1, false, none⟩,
          some ⟨some 50⟩⟩ (fun _ => 0)).result = Except.error (Err.circuitOpen "svc") ∧
      ((ResilienceService.mk [] {}).executeWithResilience "svc"
        (fun _ => (⟨100, Except.error (Err.op "boom")⟩ : OpRun Nat))
        ⟨CBChoice.config ⟨some 2, none, some 1000, none⟩, some ⟨some 4, some 1, false, none⟩,
          some ⟨some 50⟩⟩ (fun _ => 0)).opInvocations = 2 ∧
      ((ResilienceService.mk [] {}).executeWithResilience "svc"
        (fun _ => (⟨100, Except.error (Err.op "boom")⟩ : OpRun Nat))
        ⟨CBChoice.config ⟨some 2, none, some 1000, none⟩, some ⟨some 4, some 1, false, none⟩,
          some ⟨some 50⟩⟩ (fun _ => 0)).calls = 4) ∧
    (((ResilienceService.mk [] {}).executeWithResilience "svc"
        (fun _ => (⟨100, Except.error (Err.op "boom")⟩ : OpRun Nat))
        ⟨CBChoice.config ⟨some 3, none, some 1000, none⟩, some ⟨some 2, some 1, false, none⟩,
          some ⟨some 50⟩⟩ (fun _ => 0)).result = Except.error (Err.timeout 50) ∧
      ((ResilienceService.mk [] {}).executeWithResilience "svc"
        (fun _ => (⟨100, Except.error (Err.op "boom")⟩ : OpRun Nat))
        ⟨CBChoice.config ⟨some 3, none, some 1000, none⟩, some ⟨some 2, some 1, false, none⟩,
          some ⟨some 50⟩⟩ (fun _ => 0)).opInvocations = 2) := by
  constructor
  · exact (composition_retry_breaker_timeout (ResilienceService.mk [] {}) "svc"
      (fun _ => (⟨100, Except.error (Err.op "boom")⟩ : OpRun Nat)) (fun _ => Err.op "boom")
      2 1000 4 50 0 false (some 1) none rfl (by decide) (by decide) (by decide) (by decide)
      (fun j => rfl)).2 (by decide)
  · have h := (composition_retry_breaker_timeout (ResilienceService.mk [] {}) "svc"
      (fun _ => (⟨100, Except.error (Err.op "boom")⟩ : OpRun Nat)) (fun _ => Err.op "boom")
      3 1000 2 50 0 false (some 1) none rfl (by decide) (by decide) (by decide) (by decide)
      (fun j => rfl)).1 (by decide)
    exact ⟨by simpa using h.1, h.2.1⟩

end Resilience
